import Mathlib

/-!
Verification of the quiz state engine of `src/main.py` (a Telegram quiz bot).

The SQLite store (tables `users`, `tests`, `submissions`) is embedded as a
`Store` of three lists kept in insertion (rowid) order.  The handlers
`handle_create`, `handle_submit`, `cmd_finish`, `cmd_results` and the helpers
`generate_unique_code`, `score_answers`, `norm`, `get_role`, `set_role` are
translated directly from the source; the transport layer (regex parsing,
message rendering) is out of scope, so each handler takes the already-extracted
arguments and returns a typed result together with the next store.
Timestamps (`datetime.utcnow().isoformat()`) are embedded as naturals ordered
the same way the ISO strings are ordered.  The random draws of
`random.randint(1000, 9999)` are passed in as an explicit stream
`draws : Nat → Nat`, and the unbounded retry loop of `generate_unique_code`
is given explicit fuel: `none` means the loop has not returned within `fuel`
iterations.
-/

/-- Row of the `tests` table (the unused `created_at` column is omitted;
`id` is the list position). -/
structure Test where
  code : String
  owner_id : Nat
  answer_key : String
  length : Nat
  is_open : Bool
  deriving DecidableEq

/-- Row of the `submissions` table (`id` is the list position, which is
insertion order). -/
structure Submission where
  test_code : String
  user_id : Nat
  answers : String
  score : Nat
  submitted_at : Nat
  deriving DecidableEq

/-- The whole SQLite database: `users`, `tests`, `submissions`, each in
rowid (insertion) order. -/
structure Store where
  users : List (Nat × String)
  tests : List Test
  submissions : List Submission
  deriving DecidableEq

/-- The freshly initialised database of `init_db`. -/
def initStore : Store := ⟨[], [], []⟩

/-- Python `c in "abcd"`. -/
def validChar (c : Char) : Bool :=
  c == 'a' || c == 'b' || c == 'c' || c == 'd'

/-- `norm` of the source: `s.strip().lower()`, embedded structurally over the
character list (drop whitespace at both ends, lowercase every character). -/
def norm (s : String) : String :=
  ⟨((s.data.dropWhile Char.isWhitespace).reverse.dropWhile Char.isWhitespace).reverse.map
      Char.toLower⟩

/-- `score_answers` of the source:
`sum(1 for k, a in zip(key, ans) if k == a)`. -/
def score_answers (key ans : String) : Nat :=
  (key.data.zip ans.data).countP (fun p => p.1 == p.2)

/-- `get_role`: `SELECT role FROM users WHERE user_id = ?`. -/
def get_role (s : Store) (uid : Nat) : Option String :=
  (s.users.find? (fun p => p.1 == uid)).map (fun p => p.2)

/-- `set_role`: `INSERT ... ON CONFLICT(user_id) DO UPDATE SET role`. -/
def set_role (s : Store) (uid : Nat) (role : String) : Store :=
  if s.users.any (fun p => p.1 == uid) then
    { s with users := s.users.map (fun p => if p.1 == uid then (p.1, role) else p) }
  else
    { s with users := s.users ++ [(uid, role)] }

/-- The retry loop of `generate_unique_code`: draw `draws i`, return it as a
code unless `SELECT 1 FROM tests WHERE code = ?` finds it, else retry with the
next draw.  `fuel` bounds the number of iterations we observe; `none` means
the loop has not returned within `fuel` iterations. -/
def genLoop (s : Store) (draws : Nat → Nat) : Nat → Nat → Option String
  | _, 0 => none
  | i, fuel + 1 =>
    if s.tests.any (fun t => t.code == toString (draws i)) then genLoop s draws (i + 1) fuel
    else some (toString (draws i))

/-- `generate_unique_code` of the source, observed for `fuel` iterations. -/
def generate_unique_code (s : Store) (draws : Nat → Nat) (fuel : Nat) : Option String :=
  genLoop s draws 0 fuel

/-- `SELECT ... FROM tests WHERE code = ?` with `fetchone`. -/
def findTest (s : Store) (code : String) : Option Test :=
  s.tests.find? (fun t => t.code == code)

/-- Failure outcomes of `handle_create` (§7 error taxonomy). -/
inductive CreateError
  | NotAnAuthor
  | InvalidAnswerKey
  | LengthMismatch
  deriving DecidableEq

/-- Failure outcomes of `handle_submit` (§7 error taxonomy). -/
inductive SubmitError
  | InvalidAnswers
  | TestNotFound
  | TestClosed
  | LengthMismatch
  | DuplicateSubmission
  deriving DecidableEq

/-- Failure outcomes of `cmd_finish`.  `NotAuthor` is the role gate at the
top of the handler ("Команда доступна только составителю"). -/
inductive FinishError
  | NotAuthor
  | TestNotFound
  | NotOwner
  | AlreadyClosed
  deriving DecidableEq

/-- `handle_create`: role gate, key validation, then INSERT of a fresh-coded
open test.  `none` means `generate_unique_code` has not returned within
`fuel` iterations. -/
def handle_create (s : Store) (uid : Nat) (n : Nat) (key_raw : String)
    (draws : Nat → Nat) (fuel : Nat) : Option (Except CreateError String × Store) :=
  if get_role s uid ≠ some "author" then some (Except.error CreateError.NotAnAuthor, s)
  else if !((norm key_raw).data.all validChar) then
    some (Except.error CreateError.InvalidAnswerKey, s)
  else if (norm key_raw).length ≠ n then some (Except.error CreateError.LengthMismatch, s)
  else
    match generate_unique_code s draws fuel with
    | none => none
    | some code =>
      some (Except.ok code, { s with tests := s.tests ++ [⟨code, uid, norm key_raw, n, true⟩] })

/-- `handle_submit`: answer-character validation (done before any DB access in
the source), then test lookup, open check, length check against the stored
key, then the INSERT whose `UNIQUE(test_code, user_id)` violation is reported
as a duplicate.  On success returns `(score, len(answers))`. -/
def handle_submit (s : Store) (uid : Nat) (code : String) (ans_raw : String) (now : Nat) :
    Except SubmitError (Nat × Nat) × Store :=
  if !((norm ans_raw).data.all validChar) then (Except.error SubmitError.InvalidAnswers, s)
  else
    match findTest s code with
    | none => (Except.error SubmitError.TestNotFound, s)
    | some t =>
      if !t.is_open then (Except.error SubmitError.TestClosed, s)
      else if (norm ans_raw).length ≠ t.answer_key.length then
        (Except.error SubmitError.LengthMismatch, s)
      else if s.submissions.any (fun sub => sub.test_code == code && sub.user_id == uid) then
        (Except.error SubmitError.DuplicateSubmission, s)
      else
        (Except.ok (score_answers t.answer_key (norm ans_raw), (norm ans_raw).length),
          { s with submissions :=
              s.submissions ++
                [⟨code, uid, norm ans_raw, score_answers t.answer_key (norm ans_raw), now⟩] })

/-- The total order of `ORDER BY score DESC, submitted_at ASC`. -/
def subLE (a b : Submission) : Prop :=
  b.score < a.score ∨ (a.score = b.score ∧ a.submitted_at ≤ b.submitted_at)

instance : DecidableRel subLE := fun a b => by
  unfold subLE; exact inferInstance

instance : IsTotal Submission subLE :=
  ⟨fun a b => by unfold subLE; omega⟩

instance : IsTrans Submission subLE :=
  ⟨fun a b c hab hbc => by unfold subLE at *; omega⟩

/-- `ORDER BY score DESC, submitted_at ASC` over rows read in rowid order:
a stable sort by `subLE`. -/
def orderRows (l : List Submission) : List Submission :=
  List.insertionSort subLE l

/-- `UPDATE tests SET is_open = 0 WHERE code = ?`, rowwise. -/
def closeTest (code : String) (t : Test) : Test :=
  if t.code == code then { t with is_open := false } else t

/-- `cmd_finish`: author-role gate, lookup, owner check, open check, then the
UPDATE closing the test and the ordered SELECT of its submissions. -/
def cmd_finish (s : Store) (uid : Nat) (code : String) :
    Except FinishError (List Submission) × Store :=
  if get_role s uid ≠ some "author" then (Except.error FinishError.NotAuthor, s)
  else
    match findTest s code with
    | none => (Except.error FinishError.TestNotFound, s)
    | some t =>
      if t.owner_id ≠ uid then (Except.error FinishError.NotOwner, s)
      else if !t.is_open then (Except.error FinishError.AlreadyClosed, s)
      else
        let rows := orderRows (s.submissions.filter (fun sub => sub.test_code == code))
        (Except.ok rows, { s with tests := s.tests.map (closeTest code) })

/-- `cmd_results`: read-only lookup returning the open flag and the ordered
submissions, or a not-found marker. -/
def cmd_results (s : Store) (code : String) : Except Unit (Bool × List Submission) :=
  match findTest s code with
  | none => Except.error ()
  | some t =>
    Except.ok (t.is_open, orderRows (s.submissions.filter (fun sub => sub.test_code == code)))

/-- Store states reachable from the fresh database through the four write
operations of the engine. -/
inductive Reachable : Store → Prop where
  | init : Reachable initStore
  | register (s uid role) : Reachable s → Reachable (set_role s uid role)
  | create (s uid n key_raw draws fuel r s') : Reachable s →
      handle_create s uid n key_raw draws fuel = some (r, s') → Reachable s'
  | submit (s uid code ans_raw now r s') : Reachable s →
      handle_submit s uid code ans_raw now = (r, s') → Reachable s'
  | finish (s uid code r s') : Reachable s →
      cmd_finish s uid code = (r, s') → Reachable s'

/-- Invariant: no two rows of `tests` share a code. -/
def codesNodup (s : Store) : Prop := (s.tests.map Test.code).Nodup

/-- Invariant: no two rows of `submissions` share the `(test_code, user_id)`
key. -/
def subKeysNodup (s : Store) : Prop :=
  s.submissions.Pairwise (fun a b => a.test_code ≠ b.test_code ∨ a.user_id ≠ b.user_id)

/-- The count of positions `i < n` at which `key` and `ans` agree — the
specification's reading of `score = count(i : answers[i] == answerKey[i])`. -/
def posMatchCount (key ans : String) (n : Nat) : Nat :=
  (List.range n).countP (fun i => key.data[i]? == ans.data[i]?)

theorem countP_zip_eq (k a : List Char) :
    (k.zip a).countP (fun p => p.1 == p.2)
      = (List.range (min k.length a.length)).countP (fun i => k[i]? == a[i]?) := by
  induction k generalizing a with
  | nil => simp
  | cons c k ih =>
    cases a with
    | nil => simp
    | cons d a =>
      rw [List.zip_cons_cons, List.countP_cons]
      have hmin : min (c :: k).length (d :: a).length = min k.length a.length + 1 := by
        simp [Nat.succ_min_succ]
      rw [hmin, List.range_succ_eq_map, List.countP_cons, List.countP_map]
      have hcomp : ((fun i => (c :: k)[i]? == (d :: a)[i]?) ∘ Nat.succ)
          = (fun i : Nat => k[i]? == a[i]?) := by
        funext i
        simp [Function.comp]
      have h0 : ((c :: k)[(0 : Nat)]? == (d :: a)[(0 : Nat)]?) = (c == d) := by
        by_cases hc : c = d <;> simp [hc]
      rw [hcomp, ih a]
      simp [h0]

theorem score_answers_eq_posMatchCount (key ans : String) :
    score_answers key ans = posMatchCount key ans (min key.length ans.length) := by
  unfold score_answers posMatchCount
  exact countP_zip_eq key.data ans.data

theorem score_answers_le_min (key ans : String) :
    score_answers key ans ≤ min key.length ans.length := by
  rw [score_answers_eq_posMatchCount]
  unfold posMatchCount
  calc (List.range (min key.length ans.length)).countP _
      ≤ (List.range (min key.length ans.length)).length := List.countP_le_length _
    _ = min key.length ans.length := List.length_range _

/-- C3: for equal-length answer strings the computed score is exactly the
number of positions at which the answers agree with the key — pure positional
equality — it lies in `[0, length]`, and the three concrete examples of the
specification hold. -/
theorem claim_C3 (key ans : String) (h : key.length = ans.length) :
    score_answers key ans = posMatchCount key ans key.length
    ∧ score_answers key ans ≤ key.length
    ∧ score_answers "abcd" "abcd" = 4
    ∧ score_answers "abcd" "dcba" = 0
    ∧ score_answers "aabb" "aaaa" = 2 := by
  refine ⟨?_, ?_, by decide, by decide, by decide⟩
  · rw [score_answers_eq_posMatchCount, h, Nat.min_self]
  · have := score_answers_le_min key ans
    rw [h, Nat.min_self] at this
    rw [h]
    exact this

/-- Witness for `claim_C3` at the concrete pair `("aabb", "aaaa")`. -/
theorem claim_C3_witness :
    score_answers "aabb" "aaaa" = posMatchCount "aabb" "aaaa" (String.length "aabb")
    ∧ score_answers "aabb" "aaaa" ≤ String.length "aabb" :=
  ⟨(claim_C3 "aabb" "aaaa" (by decide)).1, (claim_C3 "aabb" "aaaa" (by decide)).2.1⟩

/-- C10: for strings of arbitrary (possibly unequal) lengths the score is the
match count over the first `min (len key) (len ans)` positions only, hence
bounded by that minimum: positions past the shorter string are ignored, not
rejected. -/
theorem claim_C10 (key ans : String) :
    score_answers key ans = posMatchCount key ans (min key.length ans.length)
    ∧ score_answers key ans ≤ min key.length ans.length
    ∧ score_answers "ab" "abcd" = 2
    ∧ score_answers "abcd" "ab" = 2 :=
  ⟨score_answers_eq_posMatchCount key ans, score_answers_le_min key ans,
    by decide, by decide⟩

theorem anyCode_eq_true_iff (s : Store) (c : String) :
    (s.tests.any (fun t => t.code == c)) = true ↔ c ∈ s.tests.map Test.code := by
  simp only [List.any_eq_true, List.mem_map, beq_iff_eq]

theorem genLoop_fresh (s : Store) (draws : Nat → Nat) :
    ∀ fuel i code, genLoop s draws i fuel = some code →
      code ∉ s.tests.map Test.code ∧ ∃ j, code = toString (draws j) := by
  intro fuel
  induction fuel with
  | zero => intro i code h; simp [genLoop] at h
  | succ fuel ih =>
    intro i code h
    rw [genLoop] at h
    by_cases hc : (s.tests.any (fun t => t.code == toString (draws i))) = true
    · rw [if_pos hc] at h
      exact ih (i + 1) code h
    · rw [if_neg hc] at h
      obtain rfl : toString (draws i) = code := by simpa using h
      refine ⟨fun hmem => hc ((anyCode_eq_true_iff s _).2 hmem), i, rfl⟩

theorem genLoop_none_of_issued (s : Store) (draws : Nat → Nat)
    (h : ∀ n, toString (draws n) ∈ s.tests.map Test.code) :
    ∀ fuel i, genLoop s draws i fuel = none := by
  intro fuel
  induction fuel with
  | zero => intro i; rfl
  | succ fuel ih =>
    intro i
    rw [genLoop, if_pos ((anyCode_eq_true_iff s _).2 (h i))]
    exact ih (i + 1)

theorem genLoop_isSome_of_unused (s : Store) (draws : Nat → Nat) :
    ∀ fuel i, (∃ j, j < fuel ∧ toString (draws (i + j)) ∉ s.tests.map Test.code) →
      (genLoop s draws i fuel).isSome = true := by
  intro fuel
  induction fuel with
  | zero =>
    rintro i ⟨j, hj, -⟩
    omega
  | succ fuel ih =>
    rintro i ⟨j, hj, hunused⟩
    rw [genLoop]
    by_cases hc : (s.tests.any (fun t => t.code == toString (draws i))) = true
    · rw [if_pos hc]
      apply ih (i + 1)
      cases j with
      | zero => exact absurd ((anyCode_eq_true_iff s _).1 hc) (by simpa using hunused)
      | succ j =>
        refine ⟨j, by omega, ?_⟩
        have hidx : i + (j + 1) = i + 1 + j := by omega
        rwa [hidx] at hunused
    · rw [if_neg hc]
      rfl

/-- A store in which every one of the 9000 possible 4-digit codes
(1000–9999) has already been issued to some test. -/
def fullStore : Store :=
  ⟨[], (List.range' 1000 9000).map (fun m => ⟨toString m, 1, "a", 1, true⟩), []⟩

/-- A draw stream that cycles through the whole 4-digit code space, the shape
any sequence of `randint(1000, 9999)` draws takes values in. -/
def cycDraws (n : Nat) : Nat := 1000 + n % 9000

theorem cycDraws_issued : ∀ n, toString (cycDraws n) ∈ fullStore.tests.map Test.code := by
  intro n
  have hmem : (1000 + n % 9000) ∈ List.range' 1000 9000 := by
    rw [List.mem_range']
    exact ⟨n % 9000, Nat.mod_lt n (by omega), by omega⟩
  simp only [fullStore, List.map_map]
  exact List.mem_map.2 ⟨1000 + n % 9000, hmem, rfl⟩

/-- C6 counterexample: in a store where all 9000 four-digit codes are already
issued, `generate_unique_code` has still returned nothing after 9001 retry
iterations, even though the draw stream cycles through the entire code space.
There is no `CodeSpaceExhausted` outcome anywhere in the code: the loop
retries forever instead of failing. -/
theorem claim_C6_counterexample :
    generate_unique_code fullStore cycDraws 9001 = none
    ∧ fullStore.tests.length = 9000 := by
  refine ⟨genLoop_none_of_issued fullStore cycDraws cycDraws_issued 9001 0, ?_⟩
  simp [fullStore]

/-- C6 amended: any code the allocator returns is a drawn value that no test
in the store already uses, and if the draw stream hits an unissued value
within the observed iterations the allocator returns a code; but when every
drawn value is already issued (in particular when the whole code space is
exhausted) the retry loop never returns — it does not fail with a
`CodeSpaceExhausted` error, it retries forever. -/
theorem claim_C6 (s : Store) (draws : Nat → Nat) (fuel : Nat) :
    (∀ code, generate_unique_code s draws fuel = some code →
        code ∉ s.tests.map Test.code ∧ ∃ j, code = toString (draws j))
    ∧ ((∀ n, toString (draws n) ∈ s.tests.map Test.code) →
        generate_unique_code s draws fuel = none)
    ∧ ((∃ j, j < fuel ∧ toString (draws j) ∉ s.tests.map Test.code) →
        (generate_unique_code s draws fuel).isSome = true) := by
  refine ⟨fun code h => genLoop_fresh s draws fuel 0 code h,
    fun h => genLoop_none_of_issued s draws h fuel 0, ?_⟩
  rintro ⟨j, hj, hunused⟩
  apply genLoop_isSome_of_unused s draws fuel 0
  refine ⟨j, hj, ?_⟩
  rwa [Nat.zero_add]

/-- Witness for `claim_C6`: with the single code 1000 issued, the constant
draw stream 1000 makes the loop spin (no result in 5 iterations), while a
stream drawing 1001 yields a code at once. -/
theorem claim_C6_witness :
    generate_unique_code ⟨[], [⟨"1000", 1, "a", 1, true⟩], []⟩ (fun _ => 1000) 5 = none
    ∧ (generate_unique_code ⟨[], [⟨"1000", 1, "a", 1, true⟩], []⟩
        (fun _ => 1001) 5).isSome = true :=
  ⟨(claim_C6 ⟨[], [⟨"1000", 1, "a", 1, true⟩], []⟩ (fun _ => 1000) 5).2.1
      (fun n => by decide),
    (claim_C6 ⟨[], [⟨"1000", 1, "a", 1, true⟩], []⟩ (fun _ => 1001) 5).2.2
      ⟨0, by decide, by decide⟩⟩

theorem set_role_tests (s : Store) (uid : Nat) (role : String) :
    (set_role s uid role).tests = s.tests ∧ (set_role s uid role).submissions = s.submissions := by
  unfold set_role
  split <;> exact ⟨rfl, rfl⟩

theorem closeTest_code (c : String) (t : Test) : (closeTest c t).code = t.code := by
  unfold closeTest
  split <;> rfl

theorem map_code_closeTest (c : String) (l : List Test) :
    (l.map (closeTest c)).map Test.code = l.map Test.code := by
  rw [List.map_map]
  exact List.map_congr_left (fun t _ => closeTest_code c t)

theorem cmd_finish_store (s : Store) (uid : Nat) (code : String) :
    (cmd_finish s uid code).2.users = s.users
    ∧ (cmd_finish s uid code).2.submissions = s.submissions
    ∧ ((cmd_finish s uid code).2.tests = s.tests
        ∨ (cmd_finish s uid code).2.tests = s.tests.map (closeTest code)) := by
  unfold cmd_finish
  split
  · exact ⟨rfl, rfl, Or.inl rfl⟩
  · split
    · exact ⟨rfl, rfl, Or.inl rfl⟩
    · split
      · exact ⟨rfl, rfl, Or.inl rfl⟩
      · split
        · exact ⟨rfl, rfl, Or.inl rfl⟩
        · exact ⟨rfl, rfl, Or.inr rfl⟩

theorem handle_submit_store (s : Store) (uid : Nat) (code ans_raw : String) (now : Nat) :
    (handle_submit s uid code ans_raw now).2.users = s.users
    ∧ (handle_submit s uid code ans_raw now).2.tests = s.tests
    ∧ ((handle_submit s uid code ans_raw now).2.submissions = s.submissions
        ∨ ((s.submissions.any (fun sub => sub.test_code == code && sub.user_id == uid)) = false
            ∧ ∃ sub : Submission, sub.test_code = code ∧ sub.user_id = uid
              ∧ (handle_submit s uid code ans_raw now).2.submissions
                  = s.submissions ++ [sub])) := by
  unfold handle_submit
  split
  · exact ⟨rfl, rfl, Or.inl rfl⟩
  · split
    · exact ⟨rfl, rfl, Or.inl rfl⟩
    · split
      · exact ⟨rfl, rfl, Or.inl rfl⟩
      · split
        · exact ⟨rfl, rfl, Or.inl rfl⟩
        · split
          · exact ⟨rfl, rfl, Or.inl rfl⟩
          · next hany =>
            refine ⟨rfl, rfl, Or.inr ⟨by simpa using hany, ?_⟩⟩
            exact ⟨_, rfl, rfl, rfl⟩

theorem handle_create_store (s : Store) (uid n : Nat) (key_raw : String)
    (draws : Nat → Nat) (fuel : Nat) (r : Except CreateError String) (s' : Store)
    (h : handle_create s uid n key_raw draws fuel = some (r, s')) :
    s'.users = s.users ∧ s'.submissions = s.submissions
    ∧ (s'.tests = s.tests
        ∨ ∃ code, generate_unique_code s draws fuel = some code ∧ r = Except.ok code
            ∧ s'.tests = s.tests ++ [⟨code, uid, norm key_raw, n, true⟩]) := by
  unfold handle_create at h
  split at h
  · obtain ⟨-, rfl⟩ : Except.error CreateError.NotAnAuthor = r ∧ s = s' := by
      simpa using h
    exact ⟨rfl, rfl, Or.inl rfl⟩
  · split at h
    · obtain ⟨-, rfl⟩ : Except.error CreateError.InvalidAnswerKey = r ∧ s = s' := by
        simpa using h
      exact ⟨rfl, rfl, Or.inl rfl⟩
    · split at h
      · obtain ⟨-, rfl⟩ : Except.error CreateError.LengthMismatch = r ∧ s = s' := by
          simpa using h
        exact ⟨rfl, rfl, Or.inl rfl⟩
      · split at h
        · exact absurd h (by simp)
        · next code hgen =>
          obtain ⟨rfl, rfl⟩ : Except.ok code = r
              ∧ ({ s with tests := s.tests ++ [⟨code, uid, norm key_raw, n, true⟩] } : Store)
                  = s' := by
            simpa using h
          exact ⟨rfl, rfl, Or.inr ⟨code, hgen, rfl, rfl⟩⟩

theorem codesNodup_reachable (s : Store) (h : Reachable s) : codesNodup s := by
  induction h with
  | init => simp [codesNodup, initStore]
  | register s uid role _ ih =>
    unfold codesNodup at *
    rw [(set_role_tests s uid role).1]
    exact ih
  | create s uid n key_raw draws fuel r s' _ hc ih =>
    obtain ⟨-, -, hts⟩ := handle_create_store s uid n key_raw draws fuel r s' hc
    unfold codesNodup at *
    rcases hts with hts | ⟨code, hgen, -, hts⟩
    · rw [hts]; exact ih
    · rw [hts, List.map_append]
      have hfresh : code ∉ s.tests.map Test.code :=
        (genLoop_fresh s draws fuel 0 code hgen).1
      simp [List.nodup_append, ih, hfresh]
  | submit s uid code ans_raw now r s' _ hc ih =>
    obtain ⟨-, hts, -⟩ := handle_submit_store s uid code ans_raw now
    unfold codesNodup at *
    rw [hc] at hts
    rw [hts]
    exact ih
  | finish s uid code r s' _ hc ih =>
    obtain ⟨-, -, hts⟩ := cmd_finish_store s uid code
    unfold codesNodup at *
    rw [hc] at hts
    rcases hts with hts | hts
    · rw [hts]; exact ih
    · rw [hts, map_code_closeTest]; exact ih

theorem subKeysNodup_reachable (s : Store) (h : Reachable s) : subKeysNodup s := by
  induction h with
  | init => simp [subKeysNodup, initStore]
  | register s uid role _ ih =>
    unfold subKeysNodup at *
    rw [(set_role_tests s uid role).2]
    exact ih
  | create s uid n key_raw draws fuel r s' _ hc ih =>
    obtain ⟨-, hsub, -⟩ := handle_create_store s uid n key_raw draws fuel r s' hc
    unfold subKeysNodup at *
    rw [hsub]
    exact ih
  | submit s uid code ans_raw now r s' _ hc ih =>
    obtain ⟨-, -, hsub⟩ := handle_submit_store s uid code ans_raw now
    rw [hc] at hsub
    unfold subKeysNodup at *
    rcases hsub with hsub | ⟨hany, sub, hcode, huid, hsub⟩
    · rw [hsub]; exact ih
    · rw [hsub, List.pairwise_append]
      refine ⟨ih, List.pairwise_singleton _ _, ?_⟩
      intro a ha b hb
      simp only [List.mem_singleton] at hb
      subst hb
      rw [List.any_eq_false] at hany
      have := hany a ha
      rw [hcode, huid]
      simp only [Bool.and_eq_true, beq_iff_eq, not_and] at this
      by_cases hc1 : a.test_code = code
      · exact Or.inr (this hc1)
      · exact Or.inl hc1
  | finish s uid code r s' _ hc ih =>
    obtain ⟨-, hsub, -⟩ := cmd_finish_store s uid code
    rw [hc] at hsub
    unfold subKeysNodup at *
    rw [hsub]
    exact ih

/-- C1: in every reachable store at most one submission exists per
`(test_code, user_id)` pair, and whenever a submission for the pair is
already recorded a further `handle_submit` for the same pair leaves the
store (hence the first submission, its answers and its score) unchanged and
never succeeds; if it passes the earlier checks (test found and open, valid
answers of the right length) it fails with `DuplicateSubmission`. -/
theorem claim_C1 (s : Store) (h : Reachable s) :
    subKeysNodup s
    ∧ (∀ uid code ans_raw now,
        (∃ sub ∈ s.submissions, sub.test_code = code ∧ sub.user_id = uid) →
          (handle_submit s uid code ans_raw now).2 = s
          ∧ (∀ v, (handle_submit s uid code ans_raw now).1 ≠ Except.ok v)
          ∧ (∀ t, findTest s code = some t → t.is_open = true →
              ((norm ans_raw).data.all validChar) = true →
              (norm ans_raw).length = t.answer_key.length →
              (handle_submit s uid code ans_raw now).1
                = Except.error SubmitError.DuplicateSubmission)) := by
  refine ⟨subKeysNodup_reachable s h, ?_⟩
  intro uid code ans_raw now hdup
  have hany :
      (s.submissions.any (fun sub => sub.test_code == code && sub.user_id == uid)) = true := by
    rw [List.any_eq_true]
    obtain ⟨sub, hmem, hc, hu⟩ := hdup
    exact ⟨sub, hmem, by simp [hc, hu]⟩
  unfold handle_submit
  split
  · next hinv =>
    refine ⟨rfl, by simp, ?_⟩
    intro t _ _ hval _
    rw [hval] at hinv
    simp at hinv
  · split
    · next hnone =>
      refine ⟨rfl, by simp, ?_⟩
      intro t hft _ _ _
      rw [hnone] at hft
      cases hft
    · next t0 heq =>
      split
      · next hclosed =>
        refine ⟨rfl, by simp, ?_⟩
        intro t hft hopen _ _
        rw [heq] at hft
        obtain rfl : t0 = t := by simpa using hft
        rw [hopen] at hclosed
        simp at hclosed
      · by_cases hlen : (norm ans_raw).length ≠ t0.answer_key.length
        · rw [if_pos hlen]
          refine ⟨rfl, by simp, ?_⟩
          intro t hft _ _ hlen2
          rw [heq] at hft
          obtain rfl : t0 = t := by simpa using hft
          exact absurd hlen2 hlen
        · rw [if_neg hlen]
          exact ⟨rfl, by simp, fun t hft hopen hval hlen2 => rfl⟩

/-- Concrete reachable store: one registered author. -/
def w_s1 : Store := ⟨[(1, "author")], [], []⟩

/-- Concrete reachable store: the author owns open test 1000 with key "a". -/
def w_s2 : Store := ⟨[(1, "author")], [⟨"1000", 1, "a", 1, true⟩], []⟩

/-- Concrete reachable store: participant 2 has submitted to test 1000. -/
def w_s3 : Store :=
  ⟨[(1, "author")], [⟨"1000", 1, "a", 1, true⟩], [⟨"1000", 2, "a", 1, 0⟩]⟩

theorem w_s1_reachable : Reachable w_s1 :=
  Reachable.register initStore 1 "author" Reachable.init

theorem w_s2_reachable : Reachable w_s2 :=
  Reachable.create w_s1 1 1 "a" (fun _ => 1000) 1 (Except.ok "1000") w_s2 w_s1_reachable rfl

theorem w_s3_reachable : Reachable w_s3 :=
  Reachable.submit w_s2 2 "1000" "a" 0 (Except.ok (1, 1)) w_s3 w_s2_reachable rfl

/-- Witness for `claim_C1`: participant 2 re-submits to test 1000 and gets
`DuplicateSubmission` with the store unchanged. -/
theorem claim_C1_witness :
    (handle_submit w_s3 2 "1000" "b" 1).2 = w_s3
    ∧ (handle_submit w_s3 2 "1000" "b" 1).1 = Except.error SubmitError.DuplicateSubmission := by
  obtain ⟨h1, -, h3⟩ :=
    (claim_C1 w_s3 w_s3_reachable).2 2 "1000" "b" 1
      ⟨⟨"1000", 2, "a", 1, 0⟩, by decide, rfl, rfl⟩
  exact ⟨h1, h3 ⟨"1000", 1, "a", 1, true⟩ rfl rfl (by decide) (by decide)⟩

/-- C2: in every reachable store no two tests share a code; every code the
allocator can return is absent from the whole historical `tests` table
(closed tests included, since rows are never deleted); `handle_create`
preserves the uniqueness invariant; and closing a test via `cmd_finish`
preserves the stored code list, so codes of closed tests keep blocking
reuse. -/
theorem claim_C2 (s : Store) (h : Reachable s) :
    codesNodup s
    ∧ (∀ draws fuel code, generate_unique_code s draws fuel = some code →
        code ∉ s.tests.map Test.code)
    ∧ (∀ uid n key_raw draws fuel r s',
        handle_create s uid n key_raw draws fuel = some (r, s') → codesNodup s')
    ∧ (∀ uid c, (cmd_finish s uid c).2.tests.map Test.code = s.tests.map Test.code) := by
  refine ⟨codesNodup_reachable s h, ?_, ?_, ?_⟩
  · intro draws fuel code hgen
    exact (genLoop_fresh s draws fuel 0 code hgen).1
  · intro uid n key_raw draws fuel r s' hc
    exact codesNodup_reachable s' (Reachable.create s uid n key_raw draws fuel r s' h hc)
  · intro uid c
    obtain ⟨-, -, hts⟩ := cmd_finish_store s uid c
    rcases hts with hts | hts
    · rw [hts]
    · rw [hts, map_code_closeTest]

/-- Witness for `claim_C2` at the concrete store `w_s2`. -/
theorem claim_C2_witness :
    codesNodup w_s2 ∧ "1001" ∉ w_s2.tests.map Test.code :=
  ⟨(claim_C2 w_s2 w_s2_reachable).1,
    (claim_C2 w_s2 w_s2_reachable).2.1 (fun _ => 1001) 1 "1001" rfl⟩

theorem find?_map_closeTest (code : String) (l : List Test) (t : Test)
    (h : l.find? (fun u => u.code == code) = some t) :
    (l.map (closeTest code)).find? (fun u => u.code == code)
      = some { t with is_open := false } := by
  induction l with
  | nil => simp at h
  | cons a l ih =>
    simp only [List.find?_cons_eq_some] at h
    rcases h with ⟨hpa, rfl⟩ | ⟨hna, hfind⟩
    · simp only [List.map_cons, List.find?_cons_eq_some]
      left
      constructor
      · rw [closeTest_code]
        exact hpa
      · simp [closeTest, hpa]
    · simp only [List.map_cons, List.find?_cons_eq_some]
      right
      constructor
      · rw [closeTest_code]
        exact hna
      · exact ih hfind

theorem cmd_finish_notauthor (s : Store) (uid : Nat) (code : String)
    (hrole : get_role s uid ≠ some "author") :
    cmd_finish s uid code = (Except.error FinishError.NotAuthor, s) := by
  simp [cmd_finish, hrole]

theorem cmd_finish_notfound (s : Store) (uid : Nat) (code : String)
    (hrole : get_role s uid = some "author") (hfind : findTest s code = none) :
    cmd_finish s uid code = (Except.error FinishError.TestNotFound, s) := by
  simp [cmd_finish, hrole, hfind]

theorem cmd_finish_notowner (s : Store) (uid : Nat) (code : String) (t : Test)
    (hrole : get_role s uid = some "author") (hfind : findTest s code = some t)
    (howner : t.owner_id ≠ uid) :
    cmd_finish s uid code = (Except.error FinishError.NotOwner, s) := by
  simp [cmd_finish, hrole, hfind, howner]

theorem cmd_finish_closed (s : Store) (uid : Nat) (code : String) (t : Test)
    (hrole : get_role s uid = some "author") (hfind : findTest s code = some t)
    (howner : t.owner_id = uid) (hopen : t.is_open = false) :
    cmd_finish s uid code = (Except.error FinishError.AlreadyClosed, s) := by
  simp [cmd_finish, hrole, hfind, howner, hopen]

theorem cmd_finish_success (s : Store) (uid : Nat) (code : String) (t : Test)
    (hrole : get_role s uid = some "author") (hfind : findTest s code = some t)
    (howner : t.owner_id = uid) (hopen : t.is_open = true) :
    cmd_finish s uid code
      = (Except.ok (orderRows (s.submissions.filter (fun sub => sub.test_code == code))),
          { s with tests := s.tests.map (closeTest code) }) := by
  simp [cmd_finish, hrole, hfind, howner, hopen]

/-- C4 counterexample: in the empty store, caller 1 (who has no stored role)
calling finish on the non-existent code 1234 gets the author-role error, not
`TestNotFound`: the code checks the caller role before test existence, so the
claimed check order does not start at existence. -/
theorem claim_C4_counterexample :
    cmd_finish initStore 1 "1234" = (Except.error FinishError.NotAuthor, initStore)
    ∧ findTest initStore "1234" = none :=
  ⟨rfl, rfl⟩

/-- C4 amended: provided the caller's stored role is author (a role gate the
handler checks before anything else, failing otherwise), `cmd_finish` checks
existence (`TestNotFound`), then ownership (`NotOwner`), then openness
(`AlreadyClosed`), in that order; on success it flips the test from open to
closed and returns the ordered submissions, and a second finish on the same
code fails with `AlreadyClosed` while leaving the store unchanged, so the
transition happens exactly once. -/
theorem claim_C4 (s : Store) (uid : Nat) (code : String) :
    (get_role s uid ≠ some "author" →
        cmd_finish s uid code = (Except.error FinishError.NotAuthor, s))
    ∧ (get_role s uid = some "author" → findTest s code = none →
        cmd_finish s uid code = (Except.error FinishError.TestNotFound, s))
    ∧ (∀ t, get_role s uid = some "author" → findTest s code = some t → t.owner_id ≠ uid →
        cmd_finish s uid code = (Except.error FinishError.NotOwner, s))
    ∧ (∀ t, get_role s uid = some "author" → findTest s code = some t → t.owner_id = uid →
        t.is_open = false →
        cmd_finish s uid code = (Except.error FinishError.AlreadyClosed, s))
    ∧ (∀ t, get_role s uid = some "author" → findTest s code = some t → t.owner_id = uid →
        t.is_open = true →
        cmd_finish s uid code
            = (Except.ok (orderRows (s.submissions.filter (fun sub => sub.test_code == code))),
                { s with tests := s.tests.map (closeTest code) })
          ∧ findTest (cmd_finish s uid code).2 code = some { t with is_open := false }
          ∧ cmd_finish (cmd_finish s uid code).2 uid code
              = (Except.error FinishError.AlreadyClosed, (cmd_finish s uid code).2)) := by
  refine ⟨cmd_finish_notauthor s uid code, cmd_finish_notfound s uid code,
    fun t => cmd_finish_notowner s uid code t, fun t => cmd_finish_closed s uid code t, ?_⟩
  intro t hrole hfind howner hopen
  have hsucc := cmd_finish_success s uid code t hrole hfind howner hopen
  have hfind' :
      findTest { s with tests := s.tests.map (closeTest code) } code
        = some { t with is_open := false } :=
    find?_map_closeTest code s.tests t hfind
  refine ⟨hsucc, ?_, ?_⟩
  · rw [hsucc]
    exact hfind'
  · rw [hsucc]
    exact cmd_finish_closed _ uid code { t with is_open := false } hrole hfind' howner rfl

/-- Witness for `claim_C4`: the author closes test 1000 in `w_s2`
successfully; the second finish fails with `AlreadyClosed`. -/
theorem claim_C4_witness :
    cmd_finish w_s2 1 "1000"
        = (Except.ok (orderRows (w_s2.submissions.filter (fun sub => sub.test_code == "1000"))),
            { w_s2 with tests := w_s2.tests.map (closeTest "1000") })
    ∧ cmd_finish (cmd_finish w_s2 1 "1000").2 1 "1000"
        = (Except.error FinishError.AlreadyClosed, (cmd_finish w_s2 1 "1000").2) := by
  obtain ⟨h1, -, h3⟩ :=
    (claim_C4 w_s2 1 "1000").2.2.2.2 ⟨"1000", 1, "a", 1, true⟩ rfl rfl rfl rfl
  exact ⟨h1, h3⟩

theorem handle_submit_invalid (s : Store) (uid : Nat) (code ans_raw : String) (now : Nat)
    (hval : ((norm ans_raw).data.all validChar) = false) :
    handle_submit s uid code ans_raw now = (Except.error SubmitError.InvalidAnswers, s) := by
  simp [handle_submit, hval]

theorem handle_submit_notfound (s : Store) (uid : Nat) (code ans_raw : String) (now : Nat)
    (hval : ((norm ans_raw).data.all validChar) = true) (hfind : findTest s code = none) :
    handle_submit s uid code ans_raw now = (Except.error SubmitError.TestNotFound, s) := by
  simp [handle_submit, hval, hfind]

theorem handle_submit_closed (s : Store) (uid : Nat) (code ans_raw : String) (now : Nat)
    (t : Test) (hval : ((norm ans_raw).data.all validChar) = true)
    (hfind : findTest s code = some t) (hopen : t.is_open = false) :
    handle_submit s uid code ans_raw now = (Except.error SubmitError.TestClosed, s) := by
  simp [handle_submit, hval, hfind, hopen]

theorem handle_submit_lenmismatch (s : Store) (uid : Nat) (code ans_raw : String) (now : Nat)
    (t : Test) (hval : ((norm ans_raw).data.all validChar) = true)
    (hfind : findTest s code = some t) (hopen : t.is_open = true)
    (hlen : (norm ans_raw).length ≠ t.answer_key.length) :
    handle_submit s uid code ans_raw now = (Except.error SubmitError.LengthMismatch, s) := by
  simp [handle_submit, hval, hfind, hopen, hlen]

/-- C5 counterexample: submitting the invalid answer string "e" against the
non-existent code 1234 in the empty store yields `InvalidAnswers`, not the
`TestNotFound` the claimed check order requires: the handler validates the
answer characters before looking the test up. -/
theorem claim_C5_counterexample :
    handle_submit initStore 1 "1234" "e" 0 = (Except.error SubmitError.InvalidAnswers, initStore)
    ∧ findTest initStore "1234" = none :=
  ⟨rfl, rfl⟩

/-- C5 amended: `handle_submit` checks its failure conditions in the order
`InvalidAnswers` (answer characters validated first, before any lookup), then
`TestNotFound`, then `TestClosed`, then `LengthMismatch`; for any input
triggering several conditions the error returned is the first in this
order. -/
theorem claim_C5 (s : Store) (uid : Nat) (code ans_raw : String) (now : Nat) :
    (((norm ans_raw).data.all validChar) = false →
        handle_submit s uid code ans_raw now = (Except.error SubmitError.InvalidAnswers, s))
    ∧ (((norm ans_raw).data.all validChar) = true → findTest s code = none →
        handle_submit s uid code ans_raw now = (Except.error SubmitError.TestNotFound, s))
    ∧ (∀ t, ((norm ans_raw).data.all validChar) = true → findTest s code = some t →
        t.is_open = false →
        handle_submit s uid code ans_raw now = (Except.error SubmitError.TestClosed, s))
    ∧ (∀ t, ((norm ans_raw).data.all validChar) = true → findTest s code = some t →
        t.is_open = true → (norm ans_raw).length ≠ t.answer_key.length →
        handle_submit s uid code ans_raw now = (Except.error SubmitError.LengthMismatch, s)) :=
  ⟨handle_submit_invalid s uid code ans_raw now,
    handle_submit_notfound s uid code ans_raw now,
    fun t => handle_submit_closed s uid code ans_raw now t,
    fun t => handle_submit_lenmismatch s uid code ans_raw now t⟩

/-- A store whose only test is already closed. -/
def w_s4 : Store := ⟨[(1, "author")], [⟨"1000", 1, "a", 1, false⟩], []⟩

/-- Witness for `claim_C5`: a valid-length submission against the closed test
1000 fails with `TestClosed`. -/
theorem claim_C5_witness :
    handle_submit w_s4 2 "1000" "b" 0 = (Except.error SubmitError.TestClosed, w_s4) :=
  (claim_C5 w_s4 2 "1000" "b" 0).2.2.1 ⟨"1000", 1, "a", 1, false⟩ (by decide) rfl rfl

/-- C7: `handle_create` fails with `NotAnAuthor` when the caller's stored
role is not author, else with `InvalidAnswerKey` when the normalized key has
a character outside a–d, else with `LengthMismatch` when the key length is
not the declared `n` — checked in that order, so exactly one outcome applies;
on success (the allocator having produced a code) it appends a new test in
the open state carrying that fresh code and returns the code. -/
theorem claim_C7 (s : Store) (uid n : Nat) (key_raw : String) (draws : Nat → Nat) (fuel : Nat) :
    (get_role s uid ≠ some "author" →
        handle_create s uid n key_raw draws fuel
          = some (Except.error CreateError.NotAnAuthor, s))
    ∧ (get_role s uid = some "author" → ((norm key_raw).data.all validChar) = false →
        handle_create s uid n key_raw draws fuel
          = some (Except.error CreateError.InvalidAnswerKey, s))
    ∧ (get_role s uid = some "author" → ((norm key_raw).data.all validChar) = true →
        (norm key_raw).length ≠ n →
        handle_create s uid n key_raw draws fuel
          = some (Except.error CreateError.LengthMismatch, s))
    ∧ (∀ code, get_role s uid = some "author" → ((norm key_raw).data.all validChar) = true →
        (norm key_raw).length = n → generate_unique_code s draws fuel = some code →
        handle_create s uid n key_raw draws fuel
            = some (Except.ok code,
                { s with tests := s.tests ++ [⟨code, uid, norm key_raw, n, true⟩] })
          ∧ code ∉ s.tests.map Test.code) := by
  refine ⟨?_, ?_, ?_, ?_⟩
  · intro hrole
    simp [handle_create, hrole]
  · intro hrole hval
    simp [handle_create, hrole, hval]
  · intro hrole hval hlen
    simp [handle_create, hrole, hval, hlen]
  · intro code hrole hval hlen hgen
    constructor
    · simp [handle_create, hrole, hval, hlen, hgen]
    · exact (genLoop_fresh s draws fuel 0 code hgen).1

/-- Witness for `claim_C7`: with a registered author, the two rejection
examples of the specification (`n=5, key="abcde"` and `n=5, key="abcd"`) and
one successful creation. -/
theorem claim_C7_witness :
    handle_create w_s1 1 5 "abcde" (fun _ => 1000) 1
        = some (Except.error CreateError.InvalidAnswerKey, w_s1)
    ∧ handle_create w_s1 1 5 "abcd" (fun _ => 1000) 1
        = some (Except.error CreateError.LengthMismatch, w_s1)
    ∧ handle_create w_s1 1 1 "a" (fun _ => 1000) 1
        = some (Except.ok "1000",
            { w_s1 with tests := w_s1.tests ++ [⟨"1000", 1, norm "a", 1, true⟩] }) :=
  ⟨(claim_C7 w_s1 1 5 "abcde" (fun _ => 1000) 1).2.1 rfl (by decide),
    (claim_C7 w_s1 1 5 "abcd" (fun _ => 1000) 1).2.2.1 rfl (by decide) (by decide),
    ((claim_C7 w_s1 1 1 "a" (fun _ => 1000) 1).2.2.2 "1000" rfl (by decide) (by decide) rfl).1⟩

theorem filter_orderedInsert_pos (p : Submission → Bool) (a : Submission) (L : List Submission)
    (hpa : p a = true) (hall : ∀ b, p b = true → subLE a b) :
    (List.orderedInsert subLE a L).filter p = a :: L.filter p := by
  rw [List.orderedInsert_eq_take_drop, List.filter_append, List.filter_cons_of_pos hpa]
  have htake : ∀ b ∈ L.takeWhile (fun b => decide (¬ subLE a b)), ¬ p b = true := by
    intro b hb hpb
    have hnab : ¬ subLE a b := by simpa using List.mem_takeWhile_imp hb
    exact hnab (hall b hpb)
  have hfil : L.filter p
      = (L.takeWhile (fun b => decide (¬ subLE a b))).filter p
        ++ (L.dropWhile (fun b => decide (¬ subLE a b))).filter p := by
    rw [← List.filter_append, List.takeWhile_append_dropWhile]
  rw [List.filter_eq_nil_iff.2 htake, List.nil_append, hfil,
    List.filter_eq_nil_iff.2 htake, List.nil_append]

theorem filter_orderedInsert_neg (p : Submission → Bool) (a : Submission) (L : List Submission)
    (hpa : ¬ p a = true) :
    (List.orderedInsert subLE a L).filter p = L.filter p := by
  rw [List.orderedInsert_eq_take_drop, List.filter_append, List.filter_cons_of_neg hpa,
    ← List.filter_append, List.takeWhile_append_dropWhile]

theorem orderRows_filter_key (l : List Submission) (sc ts : Nat) :
    (orderRows l).filter (fun x => x.score == sc && x.submitted_at == ts)
      = l.filter (fun x => x.score == sc && x.submitted_at == ts) := by
  unfold orderRows
  induction l with
  | nil => rfl
  | cons a l ih =>
    show (List.orderedInsert subLE a (List.insertionSort subLE l)).filter _ = _
    by_cases hpa : (fun x : Submission => x.score == sc && x.submitted_at == ts) a = true
    · have hall : ∀ b : Submission,
          (fun x : Submission => x.score == sc && x.submitted_at == ts) b = true → subLE a b := by
        intro b hpb
        simp only [Bool.and_eq_true, beq_iff_eq] at hpa hpb
        unfold subLE
        omega
      rw [filter_orderedInsert_pos _ a _ hpa hall, ih, List.filter_cons, if_pos hpa]
    · rw [filter_orderedInsert_neg _ a _ hpa, ih, List.filter_cons, if_neg hpa]

/-- C8: the leaderboard ordering `orderRows` (used by both the finish and the
results handlers) is a permutation of the submissions, sorted by score
descending then `submitted_at` ascending; rows tied on both keys keep their
insertion order (stability); the specification's three-submission example
ranks as U3, U2, U1; and the results handler returns exactly this ordering of
the test's submissions. -/
theorem claim_C8 (l : List Submission) :
    (orderRows l).Perm l
    ∧ List.Sorted subLE (orderRows l)
    ∧ (∀ sc ts, (orderRows l).filter (fun x => x.score == sc && x.submitted_at == ts)
        = l.filter (fun x => x.score == sc && x.submitted_at == ts))
    ∧ (orderRows [⟨"1", 1, "aab", 3, 10⟩, ⟨"1", 2, "abb", 3, 5⟩,
        ⟨"1", 3, "aaa", 5, 20⟩]).map Submission.user_id = [3, 2, 1]
    ∧ (∀ s code t, findTest s code = some t →
        cmd_results s code
          = Except.ok (t.is_open,
              orderRows (s.submissions.filter (fun sub => sub.test_code == code)))) := by
  refine ⟨List.perm_insertionSort subLE l, List.sorted_insertionSort subLE l,
    orderRows_filter_key l, by decide, ?_⟩
  intro s code t hfind
  simp [cmd_results, hfind]

/-- Witness for `claim_C8`: the results handler on the concrete store `w_s3`
returns the ordered submissions of test 1000. -/
theorem claim_C8_witness :
    cmd_results w_s3 "1000"
      = Except.ok (true,
          orderRows (w_s3.submissions.filter (fun sub => sub.test_code == "1000"))) :=
  (claim_C8 []).2.2.2.2 w_s3 "1000" ⟨"1000", 1, "a", 1, true⟩ rfl
